import Mathlib

/-!
Verification of the retrieval-and-synthesis pipeline of the voice
documentation agent (`ai_voice_agent_docs.py`).

The Python source is shallowly embedded: pure data manipulation becomes
Lean functions, external collaborators (Firecrawl, Qdrant, the embedding
model, the OpenAI agents and speech endpoint, the filesystem) become
explicit oracle parameters returning `Except String`, and Python
exceptions become the `Except.error` branch.  `uuid.uuid4()` is modelled
as a fresh-counter supply (the generator's contract is that successive
draws are distinct).  `datetime.now().isoformat()` is a `String`
parameter threaded in.
-/

namespace VoiceAgent

/-! ## Data model -/

/-- The `metadata` sub-dict of a page record built by `crawl_documentation`
(`title`, `description`, `language`, `crawl_date`). -/
structure PageMetadata where
  title : String
  description : String
  language : String
  crawl_date : String
  deriving Repr, DecidableEq

/-- A page record appended to `pages` by `crawl_documentation`
(`{"content": ..., "url": ..., "metadata": {...}}`). -/
structure Page where
  content : String
  url : String
  metadata : PageMetadata
  deriving Repr, DecidableEq

/-- The `metadata` dict of a Firecrawl page item; every key may be absent. -/
structure CrawlItemMetadata where
  title : Option String
  description : Option String
  language : Option String
  sourceURL : Option String
  deriving Repr, DecidableEq

/-- One element of a Firecrawl crawl response's `data` list:
`markdown` and `html` may each be absent. -/
structure CrawlItem where
  markdown : Option String
  html : Option String
  metadata : CrawlItemMetadata
  deriving Repr, DecidableEq

/-- A Firecrawl crawl response: `status`, progress counters, the `data`
batch and the optional `next` cursor. -/
structure CrawlResponse where
  status : String
  completed : Nat
  total : Nat
  creditsUsed : Nat
  data : List CrawlItem
  next : Option String
  deriving Repr, DecidableEq

/-! ## Crawler (`crawl_documentation`, lines 173–238) -/

/-- Python truthiness of the `next` cursor (`if not next_url: break`):
absent or the empty string are falsy. -/
def truthyCursor : Option String → Bool
  | none => false
  | some s => !(s == "")

/-- Line 203, `content = page.get('markdown') or page.get('html', '')`;
Python `or`
returns the second operand whenever the first is falsy (absent or `""`). -/
def pageContent (item : CrawlItem) : String :=
  match item.markdown with
  | some s => if s == "" then item.html.getD "" else s
  | none => item.html.getD ""

/-- Build the page record `crawl_documentation` appends to `pages` for one
page item of the current batch (lines 202–222); `now` is the
`datetime.now().isoformat()` stamp. -/
def mkPage (now : String) (item : CrawlItem) : Page :=
  { content := pageContent item
    url := item.metadata.sourceURL.getD ""
    metadata :=
      { title := item.metadata.title.getD ""
        description := item.metadata.description.getD ""
        language := item.metadata.language.getD "en"
        crawl_date := now } }

/-- The `while True` pagination loop of `crawl_documentation` run against a
scripted crawl provider: `first` is the response of the initial
`firecrawl.crawl_url` call and `followups` the successive responses of
`firecrawl.get(next_url)`.  Returns the accumulated pages together with the
total number of fetches (the initial crawl plus one per cursor follow-up);
`none` models the loop demanding a follow-up the script does not provide.
The optional `output_dir` side channel is omitted: the app calls
`crawl_documentation` without it, so no file is written. -/
def crawl_documentation (now : String) :
    CrawlResponse → List CrawlResponse → Option (List Page × Nat)
  | resp, followups =>
    let batch := resp.data.map (mkPage now)
    if truthyCursor resp.next then
      match followups with
      | [] => none
      | f :: rest =>
        match crawl_documentation now f rest with
        | none => none
        | some (ps, n) => some (batch ++ ps, n + 1)
    else
      some (batch, 1)

/-- A scripted provider that returns a cursor on every response except the
last one: the shape demanded by the pagination-termination property. -/
def cursorChain : CrawlResponse → List CrawlResponse → Prop
  | r, [] => truthyCursor r.next = false
  | r, f :: rest => truthyCursor r.next = true ∧ cursorChain f rest

theorem crawl_documentation_chain_aux (now : String) :
    ∀ (followups : List CrawlResponse) (first : CrawlResponse),
      cursorChain first followups →
      crawl_documentation now first followups =
        some ((((first :: followups).map (fun r => r.data.map (mkPage now))).flatten),
              followups.length + 1)
  | [], first, h => by
      simp only [ crawl_documentation, cursorChain] at *
      rw [h]
      simp
  | f :: rest, first, h => by
      obtain ⟨h1, h2⟩ := h
      have ih := crawl_documentation_chain_aux now rest f h2
      simp only [ crawl_documentation, h1, if_pos, ih]
      simp

/-- C3: crawl pagination terminates — against a scripted provider whose
responses return a cursor exactly `N` times and then none (`first` plus `N`
follow-ups), `crawl_documentation` performs exactly `N + 1` fetches and
returns the in-order concatenation of every batch's page records, each page
built by `mkPage` (metadata preserved). -/
theorem c3_crawl_pagination_terminates (now : String)
    (followups : List CrawlResponse) (first : CrawlResponse)
    (h : cursorChain first followups) :
    crawl_documentation now first followups =
      some ((((first :: followups).map (fun r => r.data.map (mkPage now))).flatten),
            followups.length + 1) :=
  crawl_documentation_chain_aux now followups first h

/-- Witness for C3: a two-fetch chain (one cursor, then none). -/
theorem c3_crawl_pagination_terminates_witness :
    crawl_documentation "2025-01-01"
      { status := "completed", completed := 1, total := 2, creditsUsed := 1,
        data := [{ markdown := some "A", html := none,
                   metadata := { title := some "a", description := none,
                                 language := none, sourceURL := some "https://d/a" } }],
        next := some "cursor1" }
      [{ status := "completed", completed := 2, total := 2, creditsUsed := 2,
         data := [{ markdown := none, html := some "<b>B</b>",
                    metadata := { title := none, description := some "bb",
                                  language := some "fr", sourceURL := none } }],
         next := none }] =
      some ([{ content := "A", url := "https://d/a",
               metadata := { title := "a", description := "", language := "en",
                             crawl_date := "2025-01-01" } },
             { content := "<b>B</b>", url := "",
               metadata := { title := "", description := "bb", language := "fr",
                             crawl_date := "2025-01-01" } }], 2) := by
  rw [c3_crawl_pagination_terminates "2025-01-01" _ _
    (by simp [cursorChain, truthyCursor])]
  rfl

/-! ## Vector store (Qdrant collaborator) and `setup_qdrant_collection`
(lines 148–171) -/

/-- Flattened payload of an upserted point:
`{"content": ..., "url": ..., **page["metadata"]}` (lines 252–256). -/
structure Payload where
  content : String
  url : String
  title : String
  description : String
  language : String
  crawl_date : String
  deriving Repr, DecidableEq

/-- A point as upserted by `store_embeddings`.  The `str(uuid.uuid4())` id
is modelled as the draw index of the fresh-uuid supply. -/
structure PointStruct where
  id : Nat
  vector : List Int
  payload : Payload
  deriving Repr, DecidableEq

/-- A named collection of the vector store. -/
structure CollectionData where
  dim : Nat
  points : List PointStruct
  deriving Repr, DecidableEq

/-- The vector store: an association of collection names to collections. -/
abbrev QdrantStore := List (String × CollectionData)

/-- Look a collection up by name. -/
def lookupColl : QdrantStore → String → Option CollectionData
  | [], _ => none
  | (n, c) :: rest, name => if n == name then some c else lookupColl rest name

/-- Replace the named collection's data. -/
def updateColl : QdrantStore → String → CollectionData → QdrantStore
  | [], _, _ => []
  | (n, c) :: rest, name, c' =>
    if n == name then (n, c') :: rest else (n, c) :: updateColl rest name c'

/-- Number of points in the named collection (0 when absent). -/
def pointCount (st : QdrantStore) (name : String) : Nat :=
  match lookupColl st name with
  | some c => c.points.length
  | none => 0

/-- Modelled from the spec: `client.create_collection` of the external
vector store (Qdrant) creates the named collection when absent and raises
an error whose message contains "already exists" when the name is taken
(the behavior `setup_qdrant_collection`'s handler relies on). -/
def create_collection (st : QdrantStore) (name : String) (dim : Nat) :
    Except String QdrantStore :=
  match lookupColl st name with
  | some _ => .error ("Collection `" ++ name ++ "` already exists!")
  | none => .ok (st ++ [(name, { dim := dim, points := [] })])

/-- Python `pat in s` on strings: `pat` occurs as a contiguous substring. -/
def subList (pat : List Char) : List Char → Bool
  | [] => pat.isEmpty
  | c :: rest => pat.isPrefixOf (c :: rest) || subList pat rest

/-- Line 168, `"already exists" in str(e)`. -/
def strContains (s pat : String) : Bool :=
  subList pat.toList s.toList

/-- Function `setup_qdrant_collection` (lines 148–171): create the collection and
return the connected client state; an "already exists" failure from the
store is swallowed (the state is returned unchanged), every other failure
re-raised.  The client connection and the embedding-dimension probe are
collaborator calls whose result is the given `dim`. -/
def setup_qdrant_collection (st : QdrantStore) (name : String) (dim : Nat) :
    Except String QdrantStore :=
  match create_collection st name dim with
  | .ok st' => .ok st'
  | .error e => if strContains e "already exists" then .ok st else .error e

theorem isPrefixOf_append (pat rest : List Char) :
    pat.isPrefixOf (pat ++ rest) = true := by
  induction pat with
  | nil => simp [List.isPrefixOf]
  | cons c cs ih => simp [List.isPrefixOf, ih]

theorem subList_of_isPrefixOf (pat big : List Char)
    (h : pat.isPrefixOf big = true) : subList pat big = true := by
  cases big with
  | nil =>
    cases pat with
    | nil => rfl
    | cons c cs => simp [List.isPrefixOf] at h
  | cons c rest => simp [subList, h]

theorem subList_cons (pat : List Char) (c : Char) (rest : List Char)
    (h : subList pat rest = true) : subList pat (c :: rest) = true := by
  simp [subList, h]

theorem subList_append (pat : List Char) :
    ∀ (pre post : List Char), subList pat (pre ++ pat ++ post) = true := by
  intro pre
  induction pre with
  | nil =>
    intro post
    simp only [List.nil_append]
    exact subList_of_isPrefixOf _ _ (isPrefixOf_append pat post)
  | cons c cs ih =>
    intro post
    simp only [List.cons_append]
    exact subList_cons _ _ _ (ih post)

theorem strContains_exists_msg (name : String) :
    strContains ("Collection `" ++ name ++ "` already exists!") "already exists" = true := by
  have hsplit : ("Collection `" ++ name ++ "` already exists!").toList =
      ("Collection `".toList ++ name.toList ++ "` ".toList) ++
        "already exists".toList ++ "!".toList := by
    have h1 : ∀ s t : String, (s ++ t).toList = s.toList ++ t.toList := by
      intro s t; rfl
    rw [h1, h1]
    have h2 : ("` already exists!" : String).toList =
        "` ".toList ++ "already exists".toList ++ "!".toList := by decide
    rw [h2]
    simp [List.append_assoc]
  unfold strContains
  rw [hsplit]
  exact subList_append _ _ _

theorem lookupColl_append_self (name : String) (c : CollectionData) :
    ∀ (st : QdrantStore), lookupColl st name = none →
      lookupColl (st ++ [(name, c)]) name = some c := by
  intro st
  induction st with
  | nil => intro _; simp [lookupColl]
  | cons hd rest ih =>
    intro h
    obtain ⟨n, d⟩ := hd
    simp only [List.cons_append]
    simp only [lookupColl] at h ⊢
    by_cases hn : (n == name) = true
    · rw [if_pos hn] at h; cases h
    · rw [if_neg hn] at h ⊢
      exact ih h

theorem setup_qdrant_collection_noop (st : QdrantStore) (name : String)
    (dim : Nat) (c : CollectionData) (h : lookupColl st name = some c) :
    setup_qdrant_collection st name dim = .ok st := by
  unfold setup_qdrant_collection create_collection
  rw [h]
  simp [strContains_exists_msg]

theorem setup_qdrant_collection_mem (st st' : QdrantStore) (name : String)
    (dim : Nat) (h : setup_qdrant_collection st name dim = .ok st') :
    ∃ c, lookupColl st' name = some c := by
  unfold setup_qdrant_collection create_collection at h
  cases hl : lookupColl st name with
  | some c =>
    rw [hl] at h
    simp only [strContains_exists_msg, if_pos, Except.ok.injEq] at h
    exact ⟨c, h ▸ hl⟩
  | none =>
    rw [hl] at h
    simp only [Except.ok.injEq] at h
    exact ⟨_, h ▸ lookupColl_append_self name _ st hl⟩

/-- C6: collection creation is idempotent — after a successful
`setup_qdrant_collection`, calling it again with identical arguments (the
collection now exists) does not raise, returns the state unchanged, and
preserves the collection's point count. -/
theorem c6_setup_collection_idempotent (st : QdrantStore) (name : String)
    (dim : Nat) (st' : QdrantStore)
    (h : setup_qdrant_collection st name dim = .ok st') :
    (lookupColl st' name).isSome = true ∧
    setup_qdrant_collection st' name dim = .ok st' ∧
    (∀ st'', setup_qdrant_collection st' name dim = .ok st'' →
       pointCount st'' name = pointCount st' name) := by
  obtain ⟨c, hc⟩ := setup_qdrant_collection_mem st st' name dim h
  have hnoop := setup_qdrant_collection_noop st' name dim c hc
  refine ⟨by rw [hc]; rfl, hnoop, ?_⟩
  intro st'' h''
  rw [hnoop] at h''
  cases h''
  rfl

/-- Witness for C6 at a concrete store. -/
theorem c6_setup_collection_idempotent_witness :
    setup_qdrant_collection ([] : QdrantStore) "docs_embeddings" 384 =
      .ok [("docs_embeddings", { dim := 384, points := [] })] ∧
    setup_qdrant_collection [("docs_embeddings", { dim := 384, points := [] })]
        "docs_embeddings" 384 =
      .ok [("docs_embeddings", { dim := 384, points := [] })] := by
  refine ⟨rfl, ?_⟩
  exact (c6_setup_collection_idempotent [] "docs_embeddings" 384
    [("docs_embeddings", { dim := 384, points := [] })] rfl).2.1

/-- C7: per page item, content prefers the rendered (markdown) form when
present and non-empty, falls back to the raw (html) form, else is empty;
language defaults to "en", title and description to "" when absent; and the
crawl timestamp is stamped on the emitted page. -/
theorem c7_page_extraction (now : String) (item : CrawlItem) :
    (∀ m, item.markdown = some m → m ≠ "" → (mkPage now item).content = m) ∧
    ((item.markdown = none ∨ item.markdown = some "") →
       ∀ h, item.html = some h → (mkPage now item).content = h) ∧
    ((item.markdown = none ∨ item.markdown = some "") →
       item.html = none → (mkPage now item).content = "") ∧
    (item.metadata.language = none → (mkPage now item).metadata.language = "en") ∧
    (item.metadata.title = none → (mkPage now item).metadata.title = "") ∧
    (item.metadata.description = none →
       (mkPage now item).metadata.description = "") ∧
    (mkPage now item).metadata.crawl_date = now := by
  refine ⟨?_, ?_, ?_, ?_, ?_, ?_, rfl⟩
  · intro m hm hne
    simp [mkPage, pageContent, hm, hne]
  · rintro (hmd | hmd) h hh <;> simp [mkPage, pageContent, hmd, hh]
  · rintro (hmd | hmd) hh <;> simp [mkPage, pageContent, hmd, hh]
  · intro hl; simp [mkPage, hl]
  · intro ht; simp [mkPage, ht]
  · intro hd; simp [mkPage, hd]

/-- Witness for C7 at a concrete page item. -/
theorem c7_page_extraction_witness :
    (mkPage "2025-01-01"
        { markdown := some "", html := some "<p>hi</p>",
          metadata := { title := none, description := none,
                        language := none, sourceURL := some "https://d/x" } }).content
      = "<p>hi</p>" := by
  exact (c7_page_extraction "2025-01-01" _).2.1 (Or.inr rfl) "<p>hi</p>" rfl

/-! ## Indexer (`store_embeddings`, lines 240–266) -/

/-- The payload constructed for one page (lines 252–256): `content`, `url`,
and the page's metadata flattened in by `**page["metadata"]`. -/
def payloadOf (p : Page) : Payload :=
  { content := p.content
    url := p.url
    title := p.metadata.title
    description := p.metadata.description
    language := p.metadata.language
    crawl_date := p.metadata.crawl_date }

/-- Modelled from the spec: the external store's upsert inserts or replaces
a point by id within a collection's point list. -/
def upsertPoint (pts : List PointStruct) (pt : PointStruct) : List PointStruct :=
  if pts.any (fun q => q.id == pt.id) then
    pts.map (fun q => if q.id == pt.id then pt else q)
  else
    pts ++ [pt]

/-- Modelled from the spec: `client.upsert` of the external vector store —
insert-or-replace the point in the named collection, raising when the
collection does not exist. -/
def upsert (st : QdrantStore) (name : String) (pt : PointStruct) :
    Except String QdrantStore :=
  match lookupColl st name with
  | none => .error ("Collection " ++ name ++ " does not exist")
  | some c => .ok (updateColl st name { c with points := upsertPoint c.points pt })

/-- State threaded through `store_embeddings`: the vector store, the
fresh-uuid supply position, and counters of collaborator calls made. -/
structure IndexState where
  store : QdrantStore
  nextUuid : Nat
  embedCalls : Nat
  upsertCalls : Nat
  deriving Repr

/-- Function `store_embeddings` (lines 240–266): for each page in order, one
embedding call on its raw content, then one upsert of a single point whose
id is a fresh uuid draw and whose payload is the page's flattened fields;
any embedding or upsert failure propagates. -/
def store_embeddings (embed : String → Except String (List Int)) :
    List Page → String → IndexState → Except String IndexState
  | [], _, s => .ok s
  | page :: rest, collection_name, s =>
    match embed page.content with
    | .error e => .error e
    | .ok v =>
      match upsert s.store collection_name
          { id := s.nextUuid, vector := v, payload := payloadOf page } with
      | .error e => .error e
      | .ok store' =>
        store_embeddings embed rest collection_name
          { store := store', nextUuid := s.nextUuid + 1,
            embedCalls := s.embedCalls + 1, upsertCalls := s.upsertCalls + 1 }

/-- The vector the embedding oracle returns for a text (meaningful only
where the oracle succeeds). -/
def embedVal (embed : String → Except String (List Int)) (t : String) : List Int :=
  match embed t with
  | .ok v => v
  | .error _ => []

/-- The points a successful `store_embeddings` run appends: one per page in
order, ids drawn consecutively from the uuid supply. -/
def mkNewPoints (embed : String → Except String (List Int)) :
    Nat → List Page → List PointStruct
  | _, [] => []
  | base, p :: rest =>
    { id := base, vector := embedVal embed p.content, payload := payloadOf p } ::
      mkNewPoints embed (base + 1) rest

theorem lookupColl_updateColl_self (name : String) (c' : CollectionData) :
    ∀ (st : QdrantStore) (c : CollectionData), lookupColl st name = some c →
      lookupColl (updateColl st name c') name = some c' := by
  intro st
  induction st with
  | nil => intro c h; simp [lookupColl] at h
  | cons hd rest ih =>
    intro c h
    obtain ⟨n, d⟩ := hd
    simp only [lookupColl, updateColl] at h ⊢
    by_cases hn : (n == name) = true
    · rw [if_pos hn] at h ⊢
      simp [lookupColl, hn]
    · rw [if_neg hn] at h ⊢
      simp only [lookupColl, if_neg hn]
      exact ih c h

theorem mkNewPoints_length (embed : String → Except String (List Int)) :
    ∀ (pages : List Page) (base : Nat),
      (mkNewPoints embed base pages).length = pages.length := by
  intro pages
  induction pages with
  | nil => intro base; rfl
  | cons p rest ih => intro base; simp [mkNewPoints, ih]

theorem mkNewPoints_payloads (embed : String → Except String (List Int)) :
    ∀ (pages : List Page) (base : Nat),
      (mkNewPoints embed base pages).map (fun pt => pt.payload) =
        pages.map payloadOf := by
  intro pages
  induction pages with
  | nil => intro base; rfl
  | cons p rest ih => intro base; simp [mkNewPoints, ih]

theorem mkNewPoints_ids (embed : String → Except String (List Int)) :
    ∀ (pages : List Page) (base : Nat),
      (mkNewPoints embed base pages).map (fun pt => pt.id) =
        (List.range pages.length).map (fun i => base + i) := by
  intro pages
  induction pages with
  | nil => intro base; rfl
  | cons p rest ih =>
    intro base
    simp only [mkNewPoints, List.map_cons, ih (base + 1), List.length_cons,
      List.range_succ_eq_map, List.map_map]
    refine List.cons_eq_cons.mpr ⟨by omega, ?_⟩
    apply List.map_congr_left
    intro i _
    simp only [Function.comp_apply]
    omega

theorem mkNewPoints_ids_nodup (embed : String → Except String (List Int))
    (pages : List Page) (base : Nat) :
    ((mkNewPoints embed base pages).map (fun pt => pt.id)).Nodup := by
  rw [mkNewPoints_ids]
  exact List.Nodup.map (add_right_injective base) (List.nodup_range pages.length)

theorem mkNewPoints_ids_ge (embed : String → Except String (List Int)) :
    ∀ (pages : List Page) (base : Nat),
      ∀ pt ∈ mkNewPoints embed base pages, base ≤ pt.id := by
  intro pages
  induction pages with
  | nil => intro base pt h; simp [mkNewPoints] at h
  | cons p rest ih =>
    intro base pt h
    simp only [mkNewPoints, List.mem_cons] at h
    rcases h with h | h
    · subst h; exact le_refl _
    · exact le_trans (Nat.le_succ base) (ih (base + 1) pt h)

theorem store_embeddings_ok (embed : String → Except String (List Int)) :
    ∀ (pages : List Page) (name : String) (s : IndexState) (c : CollectionData),
      (∀ p ∈ pages, ∃ v, embed p.content = .ok v) →
      lookupColl s.store name = some c →
      (∀ pt ∈ c.points, pt.id < s.nextUuid) →
      ∃ s' c', store_embeddings embed pages name s = .ok s' ∧
        s'.embedCalls = s.embedCalls + pages.length ∧
        s'.upsertCalls = s.upsertCalls + pages.length ∧
        s'.nextUuid = s.nextUuid + pages.length ∧
        lookupColl s'.store name = some c' ∧
        c'.dim = c.dim ∧
        c'.points = c.points ++ mkNewPoints embed s.nextUuid pages := by
  intro pages
  induction pages with
  | nil =>
    intro name s c _ hc _
    exact ⟨s, c, rfl, rfl, rfl, rfl, hc, rfl, by simp [mkNewPoints]⟩
  | cons p rest ih =>
    intro name s c hok hc hfresh
    obtain ⟨v, hv⟩ := hok p (List.mem_cons_self p rest)
    have hany : c.points.any (fun q => q.id == s.nextUuid) = false := by
      rw [List.any_eq_false]
      intro q hq
      have := hfresh q hq
      simp only [beq_iff_eq]
      omega
    set pt : PointStruct :=
      { id := s.nextUuid, vector := v, payload := payloadOf p } with hpt
    have hupsert : upsert s.store name pt =
        .ok (updateColl s.store name
          { c with points := c.points ++ [pt] }) := by
      unfold upsert
      rw [hc]
      unfold upsertPoint
      rw [hpt]
      simp only [hany]
      rfl
    set s1 : IndexState :=
      { store := updateColl s.store name { c with points := c.points ++ [pt] },
        nextUuid := s.nextUuid + 1,
        embedCalls := s.embedCalls + 1, upsertCalls := s.upsertCalls + 1 } with hs1
    have hc1 : lookupColl s1.store name = some { c with points := c.points ++ [pt] } :=
      lookupColl_updateColl_self name _ s.store c hc
    have hfresh1 : ∀ q ∈ ({ c with points := c.points ++ [pt] } :
        CollectionData).points, q.id < s1.nextUuid := by
      intro q hq
      simp only [List.mem_append, List.mem_singleton] at hq
      rcases hq with hq | hq
      · exact lt_trans (hfresh q hq) (Nat.lt_succ_self _)
      · subst hq; exact Nat.lt_succ_self _
    obtain ⟨s', c', hrun, he, hu, hn, hl, hd, hp⟩ :=
      ih name s1 { c with points := c.points ++ [pt] }
        (fun q hq => hok q (List.mem_cons_of_mem p hq)) hc1 hfresh1
    refine ⟨s', c', ?_, ?_, ?_, ?_, hl, hd, ?_⟩
    · simp only [store_embeddings, hv, hupsert]
      exact hrun
    · simp only [he, hs1, List.length_cons]; omega
    · simp only [hu, hs1, List.length_cons]; omega
    · simp only [hn, hs1, List.length_cons]; omega
    · rw [hp]
      simp only [hs1]
      have : mkNewPoints embed s.nextUuid (p :: rest) =
          pt :: mkNewPoints embed (s.nextUuid + 1) rest := by
        simp only [mkNewPoints, hpt]
        congr 1
        simp [embedVal, hv]
      rw [this]
      simp [List.append_assoc]

/-- C4: when every embedding call and every upsert succeeds,
`store_embeddings` makes exactly one embedding call and one upsert per
page; the appended points carry consecutive fresh ids — pairwise distinct
and distinct from every pre-existing id — and each point's payload is its
page's content, url and flattened metadata. -/
theorem c4_store_embeddings_one_point_per_page
    (embed : String → Except String (List Int)) (pages : List Page)
    (name : String) (s : IndexState) (c : CollectionData)
    (hok : ∀ p ∈ pages, ∃ v, embed p.content = .ok v)
    (hc : lookupColl s.store name = some c)
    (hfresh : ∀ pt ∈ c.points, pt.id < s.nextUuid) :
    ∃ s' c', store_embeddings embed pages name s = .ok s' ∧
      s'.embedCalls = s.embedCalls + pages.length ∧
      s'.upsertCalls = s.upsertCalls + pages.length ∧
      lookupColl s'.store name = some c' ∧
      c'.points = c.points ++ mkNewPoints embed s.nextUuid pages ∧
      (mkNewPoints embed s.nextUuid pages).length = pages.length ∧
      (mkNewPoints embed s.nextUuid pages).map (fun pt => pt.payload) =
        pages.map payloadOf ∧
      ((mkNewPoints embed s.nextUuid pages).map (fun pt => pt.id)).Nodup ∧
      (∀ pt ∈ mkNewPoints embed s.nextUuid pages,
        ∀ q ∈ c.points, pt.id ≠ q.id) := by
  obtain ⟨s', c', h1, h2, h3, _, h5, _, h7⟩ :=
    store_embeddings_ok embed pages name s c hok hc hfresh
  refine ⟨s', c', h1, h2, h3, h5, h7, mkNewPoints_length embed pages _,
    mkNewPoints_payloads embed pages _, mkNewPoints_ids_nodup embed pages _, ?_⟩
  intro pt hpt q hq
  have h8 := mkNewPoints_ids_ge embed pages s.nextUuid pt hpt
  have h9 := hfresh q hq
  omega

/-- Witness for C4 at a concrete two-page batch. -/
theorem c4_store_embeddings_one_point_per_page_witness :
    ∃ s' c',
      store_embeddings (fun t => .ok ([(t.length : Int)]))
        [{ content := "hello", url := "https://d/a",
           metadata := { title := "A", description := "", language := "en",
                         crawl_date := "d1" } },
         { content := "world!", url := "https://d/b",
           metadata := { title := "B", description := "x", language := "en",
                         crawl_date := "d1" } }]
        "docs_embeddings"
        { store := [("docs_embeddings", { dim := 1, points := [] })],
          nextUuid := 0, embedCalls := 0, upsertCalls := 0 } = .ok s' ∧
      s'.embedCalls = 0 + 2 ∧
      s'.upsertCalls = 0 + 2 ∧
      lookupColl s'.store "docs_embeddings" = some c' ∧
      c'.points = [] ++ mkNewPoints (fun t => .ok ([(t.length : Int)])) 0
        [{ content := "hello", url := "https://d/a",
           metadata := { title := "A", description := "", language := "en",
                         crawl_date := "d1" } },
         { content := "world!", url := "https://d/b",
           metadata := { title := "B", description := "x", language := "en",
                         crawl_date := "d1" } }] := by
  obtain ⟨s', c', h1, h2, h3, h4, h5, _⟩ :=
    c4_store_embeddings_one_point_per_page
      (fun t => .ok ([(t.length : Int)]))
      [{ content := "hello", url := "https://d/a",
         metadata := { title := "A", description := "", language := "en",
                       crawl_date := "d1" } },
       { content := "world!", url := "https://d/b",
         metadata := { title := "B", description := "x", language := "en",
                       crawl_date := "d1" } }]
      "docs_embeddings"
      { store := [("docs_embeddings", { dim := 1, points := [] })],
        nextUuid := 0, embedCalls := 0, upsertCalls := 0 }
      { dim := 1, points := [] }
      (fun p _ => ⟨[(p.content.length : Int)], rfl⟩)
      rfl
      (by intro pt hpt; cases hpt)
  exact ⟨s', c', h1, h2, h3, h4, h5⟩

/-- C5 counterexample: a page whose content is the empty string is not
discarded — `store_embeddings` embeds it (one embedding call) and upserts
one point for it. -/
theorem c5_empty_page_not_discarded_counterexample :
    store_embeddings (fun _ => .ok ([1] : List Int))
      [{ content := "", url := "https://d/empty",
         metadata := { title := "t", description := "", language := "en",
                       crawl_date := "d" } }]
      "docs_embeddings"
      { store := [("docs_embeddings", { dim := 1, points := [] })],
        nextUuid := 0, embedCalls := 0, upsertCalls := 0 } =
      .ok { store := [("docs_embeddings",
              { dim := 1,
                points := [{ id := 0, vector := [1],
                             payload := { content := "", url := "https://d/empty",
                                          title := "t", description := "",
                                          language := "en",
                                          crawl_date := "d" } }] })],
            nextUuid := 1, embedCalls := 1, upsertCalls := 1 } := by
  rfl

/-- C5 amended: `store_embeddings` embeds and upserts every input page —
one embedding call and one point per page, pages with empty content
included; no page is discarded. -/
theorem c5_every_page_indexed_amended
    (embed : String → Except String (List Int)) (pages : List Page)
    (name : String) (s : IndexState) (c : CollectionData)
    (hok : ∀ p ∈ pages, ∃ v, embed p.content = .ok v)
    (hc : lookupColl s.store name = some c)
    (hfresh : ∀ pt ∈ c.points, pt.id < s.nextUuid) :
    ∃ s' c', store_embeddings embed pages name s = .ok s' ∧
      s'.embedCalls = s.embedCalls + pages.length ∧
      lookupColl s'.store name = some c' ∧
      c'.points.length = c.points.length + pages.length := by
  obtain ⟨s', c', h1, h2, _, _, h5, _, h7⟩ :=
    store_embeddings_ok embed pages name s c hok hc hfresh
  refine ⟨s', c', h1, h2, h5, ?_⟩
  rw [h7]
  simp [mkNewPoints_length]

/-- Witness for C5's amended claim: a batch containing an empty-content
page still yields one point per page. -/
theorem c5_every_page_indexed_amended_witness :
    ∃ s' c',
      store_embeddings (fun _ => .ok ([2] : List Int))
        [{ content := "", url := "https://d/empty",
           metadata := { title := "t", description := "", language := "en",
                         crawl_date := "d" } },
         { content := "full", url := "https://d/full",
           metadata := { title := "u", description := "", language := "en",
                         crawl_date := "d" } }]
        "docs_embeddings"
        { store := [("docs_embeddings", { dim := 1, points := [] })],
          nextUuid := 0, embedCalls := 0, upsertCalls := 0 } = .ok s' ∧
      s'.embedCalls = 0 + 2 ∧
      lookupColl s'.store "docs_embeddings" = some c' ∧
      c'.points.length = 0 + 2 := by
  obtain ⟨s', c', h1, h2, h3, h4⟩ :=
    c5_every_page_indexed_amended (fun _ => .ok ([2] : List Int))
      [{ content := "", url := "https://d/empty",
         metadata := { title := "t", description := "", language := "en",
                       crawl_date := "d" } },
       { content := "full", url := "https://d/full",
         metadata := { title := "u", description := "", language := "en",
                       crawl_date := "d" } }]
      "docs_embeddings"
      { store := [("docs_embeddings", { dim := 1, points := [] })],
        nextUuid := 0, embedCalls := 0, upsertCalls := 0 }
      { dim := 1, points := [] }
      (fun p _ => ⟨[2], rfl⟩)
      rfl
      (by intro pt hpt; cases hpt)
  exact ⟨s', c', h1, h2, h3, h4⟩

/-! ## Query phase (`process_query`, lines 307–390) -/

/-- Payload of a search result as read back by `process_query`
(`payload.get('url', 'Unknown URL')`, `payload.get('content', '')`);
either key may be absent. -/
structure ResultPayload where
  url : Option String
  content : Option String
  deriving Repr, DecidableEq

/-- One element of `search_response.points`; `payload := none` models a
falsy payload (absent or empty), which `process_query` skips. -/
structure SearchResult where
  payload : Option ResultPayload
  score : Int
  deriving Repr, DecidableEq

/-- The `query_details` sub-dict of a success result (lines 377–381). -/
structure QueryDetails where
  vector_size : Nat
  results_found : Nat
  collection_name : String
  deriving Repr, DecidableEq

/-- The dictionary `process_query` returns; a key absent from the Python
dict is `none`. -/
structure AnswerBundle where
  status : String
  text_response : Option String
  tts_instructions : Option String
  audio_path : Option String
  sources : Option (List String)
  query_details : Option QueryDetails
  error : Option String
  query : Option String
  deriving Repr, DecidableEq

/-- External collaborators used by `process_query`: the embedding model,
the vector store's `query_points` (limit 3, payload attached), the two
agent runs, the speech endpoint, and the audio-file write; the selected
voice and the fresh temp-file path are session inputs. -/
structure QueryEnv where
  embed : String → Except String (List Int)
  query_points : List Int → Except String (List SearchResult)
  runProcessor : String → Except String String
  runTts : String → Except String String
  createSpeech : String → String → String → Except String (List Nat)
  selected_voice : String
  audio_path : String
  writeAudio : String → List Nat → Except String Unit

/-- The exception message of line 331. -/
def noResultsMsg : String := "No relevant documents found in the vector database"

/-- The context-assembly loop (lines 335–341): results whose payload is
falsy are skipped (`continue`); the rest append
`"From {url}:\n{content}\n\n"`. -/
def contextFold : List SearchResult → String → String
  | [], acc => acc
  | r :: rest, acc =>
    match r.payload with
    | none => contextFold rest acc
    | some p =>
      contextFold rest
        (acc ++ ("From " ++ p.url.getD "Unknown URL" ++ ":\n" ++
          p.content.getD "" ++ "\n\n"))

/-- The full context string handed to the processor agent
(lines 334–344). -/
def buildContext (query : String) (rs : List SearchResult) : String :=
  contextFold rs "Based on the following documentation:\n\n"
    ++ ("\nUser Question: " ++ query ++ "\n\n")
    ++ "Please provide a clear, concise answer that can be easily spoken out loud."

/-- Line 376, `[r.payload.get("url", "Unknown URL") for r in search_results if
r.payload]` (line 376). -/
def sourcesOf (rs : List SearchResult) : List String :=
  rs.filterMap (fun r => r.payload.map (fun p => p.url.getD "Unknown URL"))

/-- The `try` body of `process_query` (lines 316–382): embed the query,
search, fail on zero results, assemble the context, run both agents, render
and write the audio, and shape the success dictionary. -/
def process_query_body (env : QueryEnv) (query : String)
    (collection_name : String) : Except String AnswerBundle :=
  match env.embed query with
  | .error e => .error e
  | .ok query_embedding =>
    match env.query_points query_embedding with
    | .error e => .error e
    | .ok search_results =>
      if search_results.isEmpty then
        .error noResultsMsg
      else
        match env.runProcessor (buildContext query search_results) with
        | .error e => .error e
        | .ok processor_response =>
          match env.runTts processor_response with
          | .error e => .error e
          | .ok tts_response =>
            match env.createSpeech env.selected_voice processor_response
                tts_response with
            | .error e => .error e
            | .ok audio =>
              match env.writeAudio env.audio_path audio with
              | .error e => .error e
              | .ok _ =>
                .ok { status := "success",
                      text_response := some processor_response,
                      tts_instructions := some tts_response,
                      audio_path := some env.audio_path,
                      sources := some (sourcesOf search_results),
                      query_details :=
                        some { vector_size := query_embedding.length,
                               results_found := search_results.length,
                               collection_name := collection_name },
                      error := none, query := none }

/-- The error dictionary built by the `except` handler (lines 386–390):
only `status`, `error` and `query`. -/
def errorBundle (e query : String) : AnswerBundle :=
  { status := "error", text_response := none, tts_instructions := none,
    audio_path := none, sources := none, query_details := none,
    error := some e, query := some query }

/-- Function `process_query` (lines 307–390): the try body with every raised
exception caught and converted into the error dictionary. -/
def process_query (env : QueryEnv) (query : String)
    (collection_name : String) : AnswerBundle :=
  match process_query_body env query collection_name with
  | .ok b => b
  | .error e => errorBundle e query

theorem process_query_body_ok (env : QueryEnv) (query collection_name : String)
    (b : AnswerBundle) (h : process_query_body env query collection_name = .ok b) :
    b.status = "success" ∧ b.error = none ∧
    (∃ t, b.text_response = some t) ∧ (∃ t, b.tts_instructions = some t) ∧
    b.audio_path = some env.audio_path ∧ (∃ s, b.sources = some s) := by
  unfold process_query_body at h
  split at h
  · exact Except.noConfusion h
  split at h
  · exact Except.noConfusion h
  split at h
  · exact Except.noConfusion h
  split at h
  · exact Except.noConfusion h
  split at h
  · exact Except.noConfusion h
  split at h
  · exact Except.noConfusion h
  split at h
  · exact Except.noConfusion h
  cases h
  exact ⟨rfl, rfl, ⟨_, rfl⟩, ⟨_, rfl⟩, rfl, ⟨_, rfl⟩⟩

/-- C1: every exception raised inside the query phase is caught by
`process_query` and converted into the error dictionary carrying the
exception's message and none of the success fields; the caller always
receives a structured result whose status is "success" or "error". -/
theorem c1_query_errors_caught (env : QueryEnv) (query collection_name : String) :
    ((process_query env query collection_name).status = "success" ∨
     (process_query env query collection_name).status = "error") ∧
    (∀ e, process_query_body env query collection_name = .error e →
       process_query env query collection_name = errorBundle e query) ∧
    ((process_query env query collection_name).status = "error" →
       (process_query env query collection_name).text_response = none ∧
       (process_query env query collection_name).tts_instructions = none ∧
       (process_query env query collection_name).audio_path = none ∧
       (process_query env query collection_name).sources = none ∧
       ∃ e, process_query_body env query collection_name = .error e ∧
         (process_query env query collection_name).error = some e) := by
  cases hb : process_query_body env query collection_name with
  | ok b =>
    obtain ⟨hst, _⟩ := process_query_body_ok env query collection_name b hb
    have hpq : process_query env query collection_name = b := by
      unfold process_query; rw [hb]
    refine ⟨Or.inl (hpq ▸ hst), ?_, ?_⟩
    · intro e he; exact Except.noConfusion he
    · intro herr
      rw [hpq, hst] at herr
      exact absurd herr (by decide)
  | error e =>
    have hpq : process_query env query collection_name = errorBundle e query := by
      unfold process_query; rw [hb]
    refine ⟨Or.inr (by rw [hpq]; rfl), ?_, ?_⟩
    · intro e' he'
      cases he'
      exact hpq
    · intro _
      rw [hpq]
      exact ⟨rfl, rfl, rfl, rfl, e, rfl, rfl⟩

/-- Witness for C1 at a concrete failing environment (the embedding stage
raises). -/
theorem c1_query_errors_caught_witness :
    process_query
      { embed := fun _ => .error "embedding provider down",
        query_points := fun _ => .ok [],
        runProcessor := fun _ => .ok "a",
        runTts := fun _ => .ok "b",
        createSpeech := fun _ _ _ => .ok [],
        selected_voice := "coral",
        audio_path := "/tmp/response_0.mp3",
        writeAudio := fun _ _ => .ok () }
      "how do I authenticate?" "docs_embeddings" =
      errorBundle "embedding provider down" "how do I authenticate?" :=
  (c1_query_errors_caught _ "how do I authenticate?" "docs_embeddings").2.1
    "embedding provider down" rfl

/-- Insert a result into a list sorted by descending score. -/
def insertByScore (r : SearchResult) : List SearchResult → List SearchResult
  | [] => [r]
  | x :: xs => if x.score ≤ r.score then r :: x :: xs else x :: insertByScore r xs

/-- Sort results by descending score. -/
def sortByScore : List SearchResult → List SearchResult
  | [] => []
  | x :: xs => insertByScore x (sortByScore xs)

/-- Modelled from the spec: `client.query_points` of the external vector
store — score every stored point against the query vector, order by
descending similarity, keep the top `k` with payload attached; an empty
collection yields an empty result list, never an error. -/
def query_points_model (sim : List Int → List Int → Int) (c : CollectionData)
    (v : List Int) (k : Nat) : List SearchResult :=
  (sortByScore (c.points.map (fun pt =>
    { payload := some { url := some pt.payload.url,
                        content := some pt.payload.content },
      score := sim v pt.vector }))).take k

theorem process_query_body_empty (env : QueryEnv) (query collection_name : String)
    (v : List Int) (he : env.embed query = .ok v)
    (hq : env.query_points v = .ok []) :
    process_query_body env query collection_name = .error noResultsMsg := by
  simp [process_query_body, he, hq, List.isEmpty]

theorem process_query_body_error_source (env : QueryEnv)
    (query collection_name e : String)
    (h : process_query_body env query collection_name = .error e) :
    env.embed query = .error e ∨
    (∃ v, env.embed query = .ok v ∧ env.query_points v = .error e) ∨
    (∃ v rs, env.embed query = .ok v ∧ env.query_points v = .ok rs ∧
      rs.isEmpty = true ∧ e = noResultsMsg) ∨
    (∃ v rs, env.embed query = .ok v ∧ env.query_points v = .ok rs ∧
      rs.isEmpty = false ∧
      (env.runProcessor (buildContext query rs) = .error e ∨
       (∃ txt, env.runProcessor (buildContext query rs) = .ok txt ∧
         (env.runTts txt = .error e ∨
          (∃ tts, env.runTts txt = .ok tts ∧
            (env.createSpeech env.selected_voice txt tts = .error e ∨
             (∃ audio, env.createSpeech env.selected_voice txt tts = .ok audio ∧
               env.writeAudio env.audio_path audio = .error e))))))) := by
  unfold process_query_body at h
  split at h
  next e' heq =>
    cases h
    exact Or.inl heq
  next v heq =>
    split at h
    next e' heq2 =>
      cases h
      exact Or.inr (Or.inl ⟨v, heq, heq2⟩)
    next rs heq2 =>
      split at h
      next hemp =>
        cases h
        exact Or.inr (Or.inr (Or.inl ⟨v, rs, heq, heq2, hemp, rfl⟩))
      next hemp =>
        have hemp' : rs.isEmpty = false := by
          cases hie : rs.isEmpty
          · rfl
          · exact absurd hie hemp
        split at h
        next e' heq3 =>
          cases h
          exact Or.inr (Or.inr (Or.inr ⟨v, rs, heq, heq2, hemp', Or.inl heq3⟩))
        next txt heq3 =>
          split at h
          next e' heq4 =>
            cases h
            exact Or.inr (Or.inr (Or.inr ⟨v, rs, heq, heq2, hemp',
              Or.inr ⟨txt, heq3, Or.inl heq4⟩⟩))
          next tts heq4 =>
            split at h
            next e' heq5 =>
              cases h
              exact Or.inr (Or.inr (Or.inr ⟨v, rs, heq, heq2, hemp',
                Or.inr ⟨txt, heq3, Or.inr ⟨tts, heq4, Or.inl heq5⟩⟩⟩))
            next audio heq5 =>
              split at h
              next e' heq6 =>
                cases h
                exact Or.inr (Or.inr (Or.inr ⟨v, rs, heq, heq2, hemp',
                  Or.inr ⟨txt, heq3, Or.inr ⟨tts, heq4,
                    Or.inr ⟨audio, heq5, heq6⟩⟩⟩⟩))
              next u heq6 => exact Except.noConfusion h

/-- C2: the "no relevant documents" failure happens exactly when the
similarity search returns zero results (provided no collaborator spoofs
the same message); and a query against an empty collection produces the
error bundle whose message is the no-relevant-documents one. -/
theorem c2_no_results_iff_empty_search :
    (∀ (env : QueryEnv) (query collection_name : String) (v : List Int)
       (rs : List SearchResult),
      env.embed query = .ok v →
      env.query_points v = .ok rs →
      (∀ ctx e, env.runProcessor ctx = .error e → e ≠ noResultsMsg) →
      (∀ t e, env.runTts t = .error e → e ≠ noResultsMsg) →
      (∀ a b c e, env.createSpeech a b c = .error e → e ≠ noResultsMsg) →
      (∀ p a e, env.writeAudio p a = .error e → e ≠ noResultsMsg) →
      (process_query env query collection_name = errorBundle noResultsMsg query ↔
        rs = [])) ∧
    (∀ (env : QueryEnv) (query collection_name : String) (v : List Int)
       (sim : List Int → List Int → Int) (dim k : Nat),
      env.embed query = .ok v →
      env.query_points =
        (fun w => .ok (query_points_model sim { dim := dim, points := [] } w k)) →
      process_query env query collection_name = errorBundle noResultsMsg query) := by
  constructor
  · intro env query collection_name v rs he hq hnp hnt hns hnw
    constructor
    · intro hpe
      cases hb : process_query_body env query collection_name with
      | ok b =>
        obtain ⟨hst, _⟩ := process_query_body_ok env query collection_name b hb
        have : process_query env query collection_name = b := by
          unfold process_query; rw [hb]
        rw [this] at hpe
        rw [hpe] at hst
        exact absurd hst (by simp [errorBundle])
      | error e =>
        have : process_query env query collection_name = errorBundle e query := by
          unfold process_query; rw [hb]
        rw [this] at hpe
        have hee : e = noResultsMsg := by
          have := congrArg AnswerBundle.error hpe
          simpa [errorBundle] using this
        subst hee
        rcases process_query_body_error_source env query collection_name
            noResultsMsg hb with
          h1 | ⟨v', h1, h2⟩ | ⟨v', rs', h1, h2, h3, _⟩ |
            ⟨v', rs', h1, h2, h3, h4⟩
        · rw [he] at h1; exact Except.noConfusion h1
        · rw [he] at h1
          cases h1
          rw [hq] at h2
          exact Except.noConfusion h2
        · rw [he] at h1
          cases h1
          rw [hq] at h2
          cases h2
          exact List.isEmpty_iff.mp h3
        · rw [he] at h1
          cases h1
          rw [hq] at h2
          cases h2
          rcases h4 with h5 | ⟨txt, _, h5 | ⟨tts, _, h5 | ⟨audio, _, h5⟩⟩⟩
          · exact absurd rfl (hnp _ _ h5)
          · exact absurd rfl (hnt _ _ h5)
          · exact absurd rfl (hns _ _ _ _ h5)
          · exact absurd rfl (hnw _ _ _ h5)
    · intro hrs
      subst hrs
      have hbody := process_query_body_empty env query collection_name v he hq
      unfold process_query
      rw [hbody]
  · intro env query collection_name v sim dim k he hq
    have hq0 : env.query_points v = .ok [] := by
      rw [hq]
      simp [query_points_model, sortByScore]
    have hbody := process_query_body_empty env query collection_name v he hq0
    unfold process_query
    rw [hbody]

/-- Witness for C2: a concrete query against an empty collection yields the
no-relevant-documents error bundle. -/
theorem c2_no_results_iff_empty_search_witness :
    process_query
      { embed := fun _ => .ok [1],
        query_points := fun w =>
          .ok (query_points_model (fun _ _ => 0) { dim := 4, points := [] } w 3),
        runProcessor := fun _ => .ok "a",
        runTts := fun _ => .ok "b",
        createSpeech := fun _ _ _ => .ok [0],
        selected_voice := "coral",
        audio_path := "/tmp/response_1.mp3",
        writeAudio := fun _ _ => .ok () }
      "what is this?" "docs_embeddings" =
      errorBundle noResultsMsg "what is this?" :=
  c2_no_results_iff_empty_search.2 _ "what is this?" "docs_embeddings" [1]
    (fun _ _ => 0) 4 3 rfl rfl

/-- Reading `payload.get('url', 'Unknown URL')` for a result (falsy payloads have
no url; the loop never reads them). -/
def urlOfResult (r : SearchResult) : String :=
  match r.payload with
  | some p => p.url.getD "Unknown URL"
  | none => "Unknown URL"

/-- Reading `payload.get('content', '')` for a result. -/
def contentOfResult (r : SearchResult) : String :=
  match r.payload with
  | some p => p.content.getD ""
  | none => ""

/-- Concatenation of a list of strings in order. -/
def concatStrings : List String → String
  | [] => ""
  | s :: rest => s ++ concatStrings rest

theorem string_append_empty (s : String) : s ++ "" = s := by
  apply String.ext
  show s.data ++ [] = s.data
  exact List.append_nil s.data

theorem string_append_assoc (a b c : String) : a ++ b ++ c = a ++ (b ++ c) := by
  apply String.ext
  show (a.data ++ b.data) ++ c.data = a.data ++ (b.data ++ c.data)
  exact List.append_assoc a.data b.data c.data

theorem contextFold_all_some :
    ∀ (rs : List SearchResult) (acc : String),
      (∀ r ∈ rs, r.payload.isSome) →
      contextFold rs acc =
        acc ++ concatStrings (rs.map (fun r =>
          "From " ++ urlOfResult r ++ ":\n" ++ contentOfResult r ++ "\n\n")) := by
  intro rs
  induction rs with
  | nil =>
    intro acc _
    simp only [contextFold, List.map_nil, concatStrings]
    exact (string_append_empty acc).symm
  | cons r rest ih =>
    intro acc hall
    have hr := hall r (List.mem_cons_self r rest)
    cases hp : r.payload with
    | none => rw [hp] at hr; exact absurd hr (by simp)
    | some p =>
      simp only [contextFold, hp, List.map_cons, concatStrings]
      rw [ih _ (fun x hx => hall x (List.mem_cons_of_mem r hx))]
      rw [string_append_assoc]
      congr 2
      simp [urlOfResult, contentOfResult, hp]

theorem contextFold_all_none :
    ∀ (rs : List SearchResult) (acc : String),
      (∀ r ∈ rs, r.payload = none) → contextFold rs acc = acc := by
  intro rs
  induction rs with
  | nil => intro acc _; rfl
  | cons r rest ih =>
    intro acc hall
    have hr := hall r (List.mem_cons_self r rest)
    simp only [contextFold, hr]
    exact ih acc (fun x hx => hall x (List.mem_cons_of_mem r hx))

theorem sourcesOf_all_some (rs : List SearchResult)
    (hall : ∀ r ∈ rs, r.payload.isSome) :
    sourcesOf rs = rs.map urlOfResult := by
  induction rs with
  | nil => rfl
  | cons r rest ih =>
    have hr := hall r (List.mem_cons_self r rest)
    cases hp : r.payload with
    | none => rw [hp] at hr; exact absurd hr (by simp)
    | some p =>
      simp only [sourcesOf, List.filterMap_cons, hp, Option.map_some, List.map_cons]
      rw [← sourcesOf]
      rw [ih (fun x hx => hall x (List.mem_cons_of_mem r hx))]
      simp [urlOfResult, hp]

theorem sourcesOf_all_none (rs : List SearchResult)
    (hall : ∀ r ∈ rs, r.payload = none) :
    sourcesOf rs = [] := by
  induction rs with
  | nil => rfl
  | cons r rest ih =>
    have hr := hall r (List.mem_cons_self r rest)
    simp only [sourcesOf, List.filterMap_cons, hr]
    exact ih (fun x hx => hall x (List.mem_cons_of_mem r hx))

theorem process_query_success (env : QueryEnv) (query collection_name : String)
    (v : List Int) (rs : List SearchResult) (txt tts : String) (audio : List Nat)
    (he : env.embed query = .ok v)
    (hq : env.query_points v = .ok rs)
    (hrs : rs ≠ [])
    (hp : env.runProcessor (buildContext query rs) = .ok txt)
    (ht : env.runTts txt = .ok tts)
    (hs : env.createSpeech env.selected_voice txt tts = .ok audio)
    (hw : env.writeAudio env.audio_path audio = .ok ()) :
    process_query env query collection_name =
      { status := "success", text_response := some txt,
        tts_instructions := some tts, audio_path := some env.audio_path,
        sources := some (sourcesOf rs),
        query_details := some { vector_size := v.length,
                                results_found := rs.length,
                                collection_name := collection_name },
        error := none, query := none } := by
  have hemp : rs.isEmpty = false := by
    cases rs with
    | nil => exact absurd rfl hrs
    | cons a l => rfl
  simp [process_query, process_query_body, he, hq, hemp, hp, ht, hs, hw]

/-- C8: for a non-empty result list (payloads present), the assembled
context is the header followed by, per result in rank order, its source URL
then its content, then the original question, then the spoken-delivery
instruction; and the success bundle's sources are the results' URLs in the
same order. -/
theorem c8_context_and_sources_ordered (env : QueryEnv)
    (query collection_name : String) (v : List Int) (rs : List SearchResult)
    (txt tts : String) (audio : List Nat)
    (he : env.embed query = .ok v)
    (hq : env.query_points v = .ok rs)
    (hrs : rs ≠ [])
    (hall : ∀ r ∈ rs, r.payload.isSome)
    (hp : env.runProcessor (buildContext query rs) = .ok txt)
    (ht : env.runTts txt = .ok tts)
    (hs : env.createSpeech env.selected_voice txt tts = .ok audio)
    (hw : env.writeAudio env.audio_path audio = .ok ()) :
    buildContext query rs =
      "Based on the following documentation:\n\n" ++
        concatStrings (rs.map (fun r =>
          "From " ++ urlOfResult r ++ ":\n" ++ contentOfResult r ++ "\n\n")) ++
        ("\nUser Question: " ++ query ++ "\n\n") ++
        "Please provide a clear, concise answer that can be easily spoken out loud." ∧
    process_query env query collection_name =
      { status := "success", text_response := some txt,
        tts_instructions := some tts, audio_path := some env.audio_path,
        sources := some (rs.map urlOfResult),
        query_details := some { vector_size := v.length,
                                results_found := rs.length,
                                collection_name := collection_name },
        error := none, query := none } := by
  constructor
  · unfold buildContext
    rw [contextFold_all_some rs _ hall]
  · rw [process_query_success env query collection_name v rs txt tts audio
      he hq hrs hp ht hs hw]
    rw [sourcesOf_all_some rs hall]

/-- Witness for C8 at a concrete two-result search. -/
theorem c8_context_and_sources_ordered_witness :
    buildContext "how?"
      [{ payload := some { url := some "https://d/a", content := some "AAA" },
         score := 9 },
       { payload := some { url := none, content := some "BBB" }, score := 5 }] =
      "Based on the following documentation:\n\n" ++
        concatStrings
          ([{ payload := some { url := some "https://d/a", content := some "AAA" },
              score := 9 },
            { payload := some { url := none, content := some "BBB" },
              score := 5 }].map (fun r =>
            "From " ++ urlOfResult r ++ ":\n" ++ contentOfResult r ++ "\n\n")) ++
        ("\nUser Question: " ++ "how?" ++ "\n\n") ++
        "Please provide a clear, concise answer that can be easily spoken out loud." ∧
    process_query
      { embed := fun _ => .ok [3, 4],
        query_points := fun _ =>
          .ok [{ payload := some { url := some "https://d/a",
                                   content := some "AAA" }, score := 9 },
               { payload := some { url := none, content := some "BBB" },
                 score := 5 }],
        runProcessor := fun _ => .ok "an answer",
        runTts := fun _ => .ok "read gently",
        createSpeech := fun _ _ _ => .ok [1, 2, 3],
        selected_voice := "coral",
        audio_path := "/tmp/response_2.mp3",
        writeAudio := fun _ _ => .ok () }
      "how?" "docs_embeddings" =
      { status := "success", text_response := some "an answer",
        tts_instructions := some "read gently",
        audio_path := some "/tmp/response_2.mp3",
        sources := some
          ([{ payload := some { url := some "https://d/a", content := some "AAA" },
              score := 9 },
            { payload := some { url := none, content := some "BBB" },
              score := 5 }].map urlOfResult),
        query_details := some { vector_size := 2, results_found := 2,
                                collection_name := "docs_embeddings" },
        error := none, query := none } := by
  exact c8_context_and_sources_ordered _ "how?" "docs_embeddings" [3, 4] _
    "an answer" "read gently" [1, 2, 3] rfl rfl (by simp) (by decide) rfl rfl rfl rfl

/-- C10: results with a falsy payload are skipped from both the context and
the sources while `results_found` still counts them — a non-empty result
list of all-empty payloads yields a success bundle with empty sources and a
context containing no retrieved passages. -/
theorem c10_empty_payloads_skipped (env : QueryEnv)
    (query collection_name : String) (v : List Int) (rs : List SearchResult)
    (txt tts : String) (audio : List Nat)
    (he : env.embed query = .ok v)
    (hq : env.query_points v = .ok rs)
    (hrs : rs ≠ [])
    (hall : ∀ r ∈ rs, r.payload = none)
    (hp : env.runProcessor (buildContext query rs) = .ok txt)
    (ht : env.runTts txt = .ok tts)
    (hs : env.createSpeech env.selected_voice txt tts = .ok audio)
    (hw : env.writeAudio env.audio_path audio = .ok ()) :
    buildContext query rs =
      "Based on the following documentation:\n\n" ++
        ("\nUser Question: " ++ query ++ "\n\n") ++
        "Please provide a clear, concise answer that can be easily spoken out loud." ∧
    process_query env query collection_name =
      { status := "success", text_response := some txt,
        tts_instructions := some tts, audio_path := some env.audio_path,
        sources := some [],
        query_details := some { vector_size := v.length,
                                results_found := rs.length,
                                collection_name := collection_name },
        error := none, query := none } := by
  constructor
  · unfold buildContext
    rw [contextFold_all_none rs _ hall]
  · rw [process_query_success env query collection_name v rs txt tts audio
      he hq hrs hp ht hs hw]
    rw [sourcesOf_all_none rs hall]

/-- Witness for C10: one all-empty-payload result still yields success with
empty sources and `results_found = 1`. -/
theorem c10_empty_payloads_skipped_witness :
    buildContext "why?" [{ payload := none, score := 7 }] =
      "Based on the following documentation:\n\n" ++
        ("\nUser Question: " ++ "why?" ++ "\n\n") ++
        "Please provide a clear, concise answer that can be easily spoken out loud." ∧
    process_query
      { embed := fun _ => .ok [5],
        query_points := fun _ => .ok [{ payload := none, score := 7 }],
        runProcessor := fun _ => .ok "sparse answer",
        runTts := fun _ => .ok "calm",
        createSpeech := fun _ _ _ => .ok [9],
        selected_voice := "nova",
        audio_path := "/tmp/response_3.mp3",
        writeAudio := fun _ _ => .ok () }
      "why?" "docs_embeddings" =
      { status := "success", text_response := some "sparse answer",
        tts_instructions := some "calm",
        audio_path := some "/tmp/response_3.mp3",
        sources := some [],
        query_details := some { vector_size := 1, results_found := 1,
                                collection_name := "docs_embeddings" },
        error := none, query := none } := by
  exact c10_empty_payloads_skipped _ "why?" "docs_embeddings" [5] _
    "sparse answer" "calm" [9] rfl rfl (by simp) (by decide) rfl rfl rfl rfl

/-! ## Session gating (`init_session_state`, `sidebar_config`,
`run_streamlit`; lines 28–47, 96–146, 413–431) -/

/-- Outcomes the four setup-stage collaborators would deliver for one
Initialize System click: `setup_qdrant_collection`, `crawl_documentation`,
`store_embeddings`, `setup_agents`. -/
structure StageOutcomes where
  qdrant : Except String Unit
  crawl : Except String Unit
  store : Except String Unit
  agents : Except String Unit
  deriving Repr

/-- The `try` block of the handler (lines 106–141): stages run in order and
the first raise aborts the remaining ones. -/
def attemptSetup (o : StageOutcomes) : Except String Unit :=
  match o.qdrant with
  | .error e => .error e
  | .ok _ =>
    match o.crawl with
    | .error e => .error e
    | .ok _ =>
      match o.store with
      | .error e => .error e
      | .ok _ => o.agents

/-- The slice of `st.session_state` that gates querying. -/
structure SessionState where
  setup_complete : Bool
  deriving Repr, DecidableEq

/-- Per `init_session_state` (line 37), `setup_complete` starts `False`. -/
def initSessionState : SessionState := { setup_complete := false }

/-- One user interaction: an Initialize System click (with whether all
credential fields were filled and the stage outcomes) or a query input. -/
inductive Event where
  | initClick (fieldsFilled : Bool) (o : StageOutcomes)
  | queryInput (q : String)
  deriving Repr

/-- One Streamlit rerun.  An Initialize System click runs the four stages
only when every field is filled, and sets `setup_complete := True` only
after all of them return (lines 96–146); the `except` handler shows the
error and leaves the flag untouched.  A query is processed only when
non-empty and `setup_complete` (lines 413–419: the input is disabled and
the handler guarded by `st.session_state.setup_complete`).  Returns the new
state and the queries processed during the step. -/
def stepSession (s : SessionState) : Event → SessionState × List String
  | .initClick filled o =>
    if filled then
      match attemptSetup o with
      | .ok _ => ({ setup_complete := true }, [])
      | .error _ => (s, [])
    else (s, [])
  | .queryInput q =>
    if !(q == "") && s.setup_complete then (s, [q]) else (s, [])

/-- Run a sequence of interactions, collecting every processed query. -/
def runSession : SessionState → List Event → SessionState × List String
  | s, [] => (s, [])
  | s, e :: rest =>
    let step := stepSession s e
    let later := runSession step.1 rest
    (later.1, step.2 ++ later.2)

/-- An Initialize System click with all fields filled and every setup stage
completing without raising. -/
def fullSetupSuccess : Event → Prop
  | .initClick filled o => filled = true ∧ attemptSetup o = .ok ()
  | .queryInput _ => False

theorem runSession_setup_invariant :
    ∀ (evs : List Event) (s : SessionState),
      ((runSession s evs).1.setup_complete = true ∨ (runSession s evs).2 ≠ []) →
      s.setup_complete = true ∨ ∃ e ∈ evs, fullSetupSuccess e := by
  intro evs
  induction evs with
  | nil =>
    intro s h
    rcases h with h | h
    · exact Or.inl h
    · exact absurd rfl h
  | cons e rest ih =>
    intro s h
    cases e with
    | initClick filled o =>
      by_cases hf : filled = true
      · cases ha : attemptSetup o with
        | ok u =>
          cases u
          exact Or.inr ⟨Event.initClick filled o, List.mem_cons_self _ _,
            hf, ha⟩
        | error msg =>
          have hstep : stepSession s (Event.initClick filled o) = (s, []) := by
            simp [stepSession, hf, ha]
          simp only [runSession, hstep] at h
          rcases ih s (by simpa using h) with h' | ⟨e', he', hs'⟩
          · exact Or.inl h'
          · exact Or.inr ⟨e', List.mem_cons_of_mem _ he', hs'⟩
      · have hstep : stepSession s (Event.initClick filled o) = (s, []) := by
          simp [stepSession, hf]
        simp only [runSession, hstep] at h
        rcases ih s (by simpa using h) with h' | ⟨e', he', hs'⟩
        · exact Or.inl h'
        · exact Or.inr ⟨e', List.mem_cons_of_mem _ he', hs'⟩
    | queryInput q =>
      by_cases hg : (!(q == "") && s.setup_complete) = true
      · exact Or.inl (Bool.and_elim_right hg)
      · have hstep : stepSession s (Event.queryInput q) = (s, []) := by
          simp only [stepSession]
          rw [if_neg hg]
        simp only [runSession, hstep] at h
        rcases ih s (by simpa using h) with h' | ⟨e', he', hs'⟩
        · exact Or.inl h'
        · exact Or.inr ⟨e', List.mem_cons_of_mem _ he', hs'⟩

/-- C9: in every reachable session state, `setup_complete` is true only if
some Initialize System click had every setup stage complete without
raising; no query is processed while `setup_complete` is false, so any
processed query is preceded by a fully successful setup; and `attemptSetup`
succeeds exactly when all four stages do. -/
theorem c9_queries_only_after_full_setup :
    (∀ (evs : List Event) (s' : SessionState) (outs : List String),
      runSession initSessionState evs = (s', outs) →
      (s'.setup_complete = true → ∃ e ∈ evs, fullSetupSuccess e) ∧
      (outs ≠ [] → ∃ e ∈ evs, fullSetupSuccess e)) ∧
    (∀ (s : SessionState) (q : String), s.setup_complete = false →
      (stepSession s (Event.queryInput q)).2 = []) ∧
    (∀ o : StageOutcomes, attemptSetup o = .ok () ↔
      (o.qdrant = .ok () ∧ o.crawl = .ok () ∧ o.store = .ok () ∧
        o.agents = .ok ())) := by
  refine ⟨?_, ?_, ?_⟩
  · intro evs s' outs hrun
    constructor
    · intro hsc
      rcases runSession_setup_invariant evs initSessionState
          (Or.inl (by rw [hrun]; exact hsc)) with h | h
      · exact absurd h (by simp [initSessionState])
      · exact h
    · intro houts
      rcases runSession_setup_invariant evs initSessionState
          (Or.inr (by rw [hrun]; exact houts)) with h | h
      · exact absurd h (by simp [initSessionState])
      · exact h
  · intro s q h
    simp [stepSession, h]
  · intro o
    obtain ⟨oq, oc, os, oa⟩ := o
    cases oq with
    | error e => simp [attemptSetup]
    | ok u =>
      cases u
      cases oc with
      | error e => simp [attemptSetup]
      | ok u =>
        cases u
        cases os with
        | error e => simp [attemptSetup]
        | ok u =>
          cases u
          cases oa with
          | error e => simp [attemptSetup]
          | ok u => cases u; simp [attemptSetup]

/-- Witness for C9: a successful click then a processed query; the
invariant recovers the fully successful setup event. -/
theorem c9_queries_only_after_full_setup_witness :
    ∃ e ∈ [Event.initClick true
             { qdrant := .ok (), crawl := .ok (), store := .ok (),
               agents := .ok () },
           Event.queryInput "how do I authenticate?"],
      fullSetupSuccess e :=
  (c9_queries_only_after_full_setup.1
    [Event.initClick true
       { qdrant := .ok (), crawl := .ok (), store := .ok (),
         agents := .ok () },
     Event.queryInput "how do I authenticate?"]
    { setup_complete := true } ["how do I authenticate?"] rfl).1 rfl

end VoiceAgent
